import Mathlib

/-!
# A shallow embedding of `ciarand/proxy` (`proxy.go`)

The Go package wraps `httputil.ReverseProxy`: it rewrites the target of every
inbound request (`Proxy.director`), buffers the upstream response in an
`httptest.ResponseRecorder`, rewrites an absolute `Location` header on 3xx
responses (`Proxy.rewriteRedirect`) and copies the buffered response to the
client (`Proxy.ServeHTTP`, `copyHeader`).

Conventions of the embedding:

* Go strings are Lean strings, read through their character list.  The code
  only concatenates strings, compares them with `""`, tests for a leading or
  trailing `/` and drops one leading `/`; these agree on bytes and on
  characters for every valid UTF-8 string.
* A Go panic (an out-of-range slice expression) is `none` in `Option`.
* Mutation of a map or of a struct behind a pointer is explicit state
  passing: the function returns the new value.
* Standard-library functions whose text is long (`url.Parse`,
  `URL.EscapedPath`) and the network round trip are parameters; short ones
  (`strings.HasPrefix`, `URL.IsAbs`, `URL.RequestURI`, `Header.Get`, ...) are
  transcribed.
* Calls to the logger write to the process-wide log only and are left out.
-/

namespace GoProxy

/-! ## `strings` and slice expressions -/

/-- Go `strings.HasPrefix(s, p)`: `len(s) >= len(p) && s[:len(p)] == p`. -/
def stringsHasPrefix (s p : String) : Bool :=
  decide (p.length ≤ s.length) && (s.data.take p.length == p.data)

/-- Go `strings.HasSuffix(s, x)`: `len(s) >= len(x) && s[len(s)-len(x):] == x`. -/
def stringsHasSuffix (s x : String) : Bool :=
  decide (x.length ≤ s.length) && (s.data.drop (s.length - x.length) == x.data)

/-- Go slice expression `s[i:]`; it panics (here: `none`) when `i > len(s)`. -/
def sliceFrom (s : String) (i : Nat) : Option String :=
  if i ≤ s.length then some (String.mk (s.data.drop i)) else none

/-! ## `singleJoiningSlash` (proxy.go, lines 127-137) -/

/-- The function `singleJoiningSlash` of proxy.go. -/
def singleJoiningSlash (a b : String) : Option String :=
  let aslash := stringsHasSuffix a "/"
  let bslash := stringsHasPrefix b "/"
  if aslash && bslash then
    (sliceFrom b 1).map (fun t => a ++ t)
  else if !aslash && !bslash then
    some (a ++ "/" ++ b)
  else
    some (a ++ b)

/-! ## `net/url` -/

/-- The fields of Go's `url.URL` (user information kept as its string form). -/
structure URL where
  Scheme : String := ""
  Opaque : String := ""
  User : Option String := none
  Host : String := ""
  Path : String := ""
  RawPath : String := ""
  ForceQuery : Bool := false
  RawQuery : String := ""
  Fragment : String := ""
  deriving DecidableEq, Repr

/-- The two `net/url` functions that are taken as given: `url.Parse`, with the
error's text on failure, and the escaping done by `URL.EscapedPath`, which
reads the fields `RawPath` and `Path` only. -/
structure NetURL where
  Parse : String → Except String URL
  escapedPath : (rawPath path : String) → String

/-- Go `(*URL).IsAbs`: `u.Scheme != ""`. -/
def URL.IsAbs (u : URL) : Bool :=
  u.Scheme != ""

/-- Go `(*URL).EscapedPath`. -/
def URL.EscapedPath (net : NetURL) (u : URL) : String :=
  net.escapedPath u.RawPath u.Path

/-- Go `(*URL).RequestURI`: the opaque part if there is one (with the scheme in
front when it starts with `//`), else the escaped path or `/` when that is
empty; then `?` and the raw query when the query is forced or non-empty. -/
def URL.RequestURI (net : NetURL) (u : URL) : String :=
  let result := u.Opaque
  let result :=
    if result = "" then
      let result := u.EscapedPath net
      if result = "" then "/" else result
    else if stringsHasPrefix result "//" then u.Scheme ++ ":" ++ result
    else result
  if u.ForceQuery || u.RawQuery != "" then result ++ "?" ++ u.RawQuery else result

/-! ## `net/textproto` and `net/http` headers -/

/-- Go `validHeaderFieldByte`: the token characters of RFC 7230, that is
letters, digits and the marks with the codes listed (exclamation mark, hash,
dollar, percent, ampersand, apostrophe, asterisk, plus, hyphen, dot, caret,
underscore, backquote, bar and tilde). -/
def validHeaderFieldByte (c : Char) : Bool :=
  c.isAlphanum ||
    [33, 35, 36, 37, 38, 39, 42, 43, 45, 46, 94, 95, 96, 124, 126].contains c.toNat

/-- The second loop of Go `canonicalMIMEHeaderKey`: first letter and every
letter after a hyphen in upper case, all other letters in lower case. -/
def canonicalLoop : Bool → List Char → List Char
  | _, [] => []
  | upper, c :: cs =>
    let c :=
      if upper && c.isLower then c.toUpper
      else if !upper && c.isUpper then c.toLower
      else c
    c :: canonicalLoop (c == '-') cs

/-- Go `canonicalMIMEHeaderKey`: a key that holds a character that is not a
token character (a space included) is returned unchanged. -/
def canonicalMIMEHeaderKey (a : List Char) : List Char :=
  if a.all validHeaderFieldByte then canonicalLoop true a else a

/-- The quick check of Go `textproto.CanonicalMIMEHeaderKey`: `true` when the
scan reaches the end, or an invalid character, without meeting a letter in the
wrong case. -/
def quickCheck : Bool → List Char → Bool
  | _, [] => true
  | upper, c :: cs =>
    if !validHeaderFieldByte c then true
    else if upper && c.isLower then false
    else if !upper && c.isUpper then false
    else quickCheck (c == '-') cs

/-- Go `textproto.CanonicalMIMEHeaderKey`. -/
def CanonicalMIMEHeaderKey (s : String) : String :=
  if quickCheck true s.data then s else String.mk (canonicalMIMEHeaderKey s.data)

/-- Go `http.Header`, a `map[string][]string`: the list holds the map's entries
in the order in which `range` visits them.  A Go map has no key twice. -/
abbrev Header := List (String × List String)

/-- The keys of a header map. -/
def Header.keys (h : Header) : List String :=
  h.map Prod.fst

/-- Go map index `h[k]`: the value list stored under `k`, `nil` when absent. -/
def Header.values : Header → String → List String
  | [], _ => []
  | (k', vv) :: rest, k => if k' = k then vv else Header.values rest k

/-- Go map assignment `h[k] = vv`. -/
def Header.assign : Header → String → List String → Header
  | [], k, vv => [(k, vv)]
  | (k', vv') :: rest, k, vv =>
    if k' = k then (k, vv) :: rest else (k', vv') :: Header.assign rest k vv

/-- Go `Header.Get`: the first value under the canonical form of `key`, or
`""`. -/
def Header.Get (h : Header) (key : String) : String :=
  match h.values (CanonicalMIMEHeaderKey key) with
  | [] => ""
  | v :: _ => v

/-- Go `Header.Set`: `h[CanonicalMIMEHeaderKey(key)] = []string{value}`. -/
def Header.Set (h : Header) (key value : String) : Header :=
  h.assign (CanonicalMIMEHeaderKey key) [value]

/-- Go `Header.Add`: `h[key] = append(h[key], value)` for the canonical key. -/
def Header.Add (h : Header) (key value : String) : Header :=
  let key := CanonicalMIMEHeaderKey key
  h.assign key (h.values key ++ [value])

/-! ## `copyHeader` (proxy.go, lines 139-145) -/

/-- The function `copyHeader` of proxy.go, for two distinct maps: the result is
the final state of `dst` and of `src` (which the loops only read). -/
def copyHeader (dst src : Header) : Header × Header :=
  (src.foldl (fun d kvv => kvv.2.foldl (fun d v => d.Add kvv.1 v) d) dst, src)

/-! ## Requests, the buffered response and the client's response writer -/

/-- The fields of Go's `http.Request` that the package reads or writes. -/
structure Request where
  Method : String := "GET"
  URL : URL := {}
  Header : Header := []
  Body : String := ""
  Host : String := ""
  RequestURI : String := ""
  RemoteAddr : String := ""
  deriving DecidableEq, Repr

/-- What `httptest.ResponseRecorder` holds after the embedded reverse proxy has
served a request: status code, header map and body. -/
structure ResponseRecorder where
  Code : Int := 200
  HeaderMap : Header := []
  Body : String := ""
  deriving DecidableEq, Repr

/-- The state of a client's `http.ResponseWriter`: the live header map
returned by `Header()`, whether the status line has been sent, the status
sent, the header map as it was when the status was sent, and the body bytes
written so far. -/
structure ResponseWriter where
  header : Header := []
  wroteHeader : Bool := false
  status : Int := 0
  sentHeader : Header := []
  body : String := ""
  deriving DecidableEq, Repr

/-- Go `ResponseWriter.WriteHeader`: the first call sends the status line and
the headers; a later call is superfluous and changes nothing. -/
def ResponseWriter.WriteHeader (w : ResponseWriter) (code : Int) : ResponseWriter :=
  if w.wroteHeader then w
  else { w with wroteHeader := true, status := code, sentHeader := w.header }

/-- Go `ResponseWriter.Write`: sends status 200 first when no status was sent,
then the data. -/
def ResponseWriter.Write (w : ResponseWriter) (data : String) : ResponseWriter :=
  let w := if w.wroteHeader then w else w.WriteHeader 200
  { w with body := w.body ++ data }

/-- Go `http.Error`: sets two headers, sends the status and prints the message
followed by a newline. -/
def httpError (w : ResponseWriter) (error : String) (code : Int) : ResponseWriter :=
  let w := { w with header := w.header.Set "Content-Type" "text/plain; charset=utf-8" }
  let w := { w with header := w.header.Set "X-Content-Type-Options" "nosniff" }
  let w := w.WriteHeader code
  w.Write (error ++ "\n")

/-- Go `io.Copy(w, buf)` for a `*bytes.Buffer`: one `Write` of the whole
content, and no call at all when the buffer is empty. -/
def ioCopy (w : ResponseWriter) (buf : String) : ResponseWriter :=
  if buf = "" then w else w.Write buf

/-- Go `http.StatusInternalServerError`. -/
def StatusInternalServerError : Int := 500

/-! ## `Proxy` (proxy.go, lines 24-125) -/

/-- The struct `Proxy` of proxy.go.  Its unexported field `embedded` is set once,
by `NewProxy`, to a reverse proxy whose `Director` is `Proxy.director`; the
embedding calls the director directly. -/
structure Proxy where
  From : URL
  To : URL
  deriving DecidableEq, Repr

/-- The function `NewProxy` of proxy.go: `to` is parsed first. -/
def NewProxy (net : NetURL) (fromStr toStr : String) : Except String Proxy :=
  match net.Parse toStr with
  | .error err => .error err
  | .ok toURL =>
    match net.Parse fromStr with
    | .error err => .error err
    | .ok fromURL => .ok { From := fromURL, To := toURL }

/-- The method `Proxy.director` of proxy.go: the request after the rewrite,
`none` if the path join panicked. -/
def Proxy.director (p : Proxy) (req : Request) : Option Request :=
  let target := p.From
  let targetQuery := target.RawQuery
  let req := { req with URL := { req.URL with Scheme := target.Scheme } }
  let req := { req with URL := { req.URL with Host := target.Host } }
  let req := { req with Host := target.Host }
  (singleJoiningSlash target.Path req.URL.Path).map fun path =>
    let req := { req with URL := { req.URL with Path := path } }
    if targetQuery = "" ∨ req.URL.RawQuery = "" then
      { req with URL := { req.URL with RawQuery := targetQuery ++ req.URL.RawQuery } }
    else
      { req with URL := { req.URL with RawQuery := targetQuery ++ "&" ++ req.URL.RawQuery } }

/-- The method `Proxy.rewriteRedirect` of proxy.go: the returned error (`none`
for `nil`) and the header map afterwards. -/
def Proxy.rewriteRedirect (net : NetURL) (p : Proxy) (h : Header) : Option String × Header :=
  let loc := h.Get "Location"
  match net.Parse loc with
  | .error err => (some err, h)
  | .ok u =>
    if !u.IsAbs then (none, h)
    else
      let u := { u with Host := p.To.Host }
      (none, h.Set "Location" (u.RequestURI net))

/-- Go `(*httputil.ReverseProxy).ServeHTTP(rec, r)` with the director of this
package: the director rewrites the outgoing request, and `roundTrip` stands
for everything the library then does with it (the connection to the host
named by the request's URL, and the copy of the answer into the recorder). -/
def Proxy.embeddedServeHTTP (p : Proxy) (roundTrip : Request → ResponseRecorder)
    (r : Request) : Option (Request × ResponseRecorder) :=
  (p.director r).map fun out => (out, roundTrip out)

/-- The method `Proxy.ServeHTTP` of proxy.go: the client's response writer
after the call, `none` if the call panicked. -/
def Proxy.ServeHTTP (net : NetURL) (p : Proxy) (roundTrip : Request → ResponseRecorder)
    (w : ResponseWriter) (r : Request) : Option ResponseWriter :=
  -- lines 62-66: the recorder is filled by the embedded reverse proxy
  (p.embeddedServeHTTP roundTrip r).map fun served =>
    let rec_ := served.2
    -- lines 69-74: on a redirect the header is rewritten; an error is answered
    -- with `http.Error`, and the method goes on (there is no `return`)
    let step :=
      if 300 ≤ rec_.Code ∧ rec_.Code < 400 then
        match p.rewriteRedirect net rec_.HeaderMap with
        | (some err, h) =>
          (httpError w err StatusInternalServerError, { rec_ with HeaderMap := h })
        | (none, h) => (w, { rec_ with HeaderMap := h })
      else (w, rec_)
    let w := step.1
    let rec_ := step.2
    -- lines 76-78
    let w := { w with header := (copyHeader w.header rec_.HeaderMap).1 }
    let w := w.WriteHeader rec_.Code
    ioCopy w rec_.Body

/-! ## The library functions on the strings of the examples -/

/-- Go `url.Parse` tabulated on the strings used in the examples below; the
last line stands for a string without a usable scheme such as
`::not a valid url::` and is not used on any other string. -/
def exampleParse (s : String) : Except String URL :=
  if s = "" then .ok {}
  else if s = "http://upstream.example/p?x=1" then
    .ok { Scheme := "http", Host := "upstream.example", Path := "/p", RawQuery := "x=1" }
  else if s = "http://upstream.example" then
    .ok { Scheme := "http", Host := "upstream.example" }
  else if s = "http://public.example/base" then
    .ok { Scheme := "http", Host := "public.example", Path := "/base" }
  else if s = "mailto:user@example.com" then
    .ok { Scheme := "mailto", Opaque := "user@example.com" }
  else if s = "/already/relative" then
    .ok { Path := "/already/relative" }
  else .error ("parse \"" ++ s ++ "\": missing protocol scheme")

/-- The library functions on the examples: a path of letters, digits, dots and
slashes with no `RawPath` is its own escaped form. -/
def exampleNet : NetURL where
  Parse := exampleParse
  escapedPath := fun _ path => path

/-! ## The words of the specification, for the path join -/

/-- The string `a` ends with `/`. -/
def EndsWithSlash (a : String) : Prop :=
  a.data.getLast? = some '/'

/-- The string `b` starts with `/`. -/
def StartsWithSlash (b : String) : Prop :=
  b.data.head? = some '/'

instance (a : String) : Decidable (EndsWithSlash a) :=
  inferInstanceAs (Decidable (a.data.getLast? = some '/'))

instance (b : String) : Decidable (StartsWithSlash b) :=
  inferInstanceAs (Decidable (b.data.head? = some '/'))

/-- The string `b` without its first character. -/
def dropFirst (b : String) : String :=
  String.mk b.data.tail

/-- The string `a` with its one trailing `/` removed if it has one. -/
def trimTrailingSlash (a : String) : String :=
  if EndsWithSlash a then String.mk a.data.dropLast else a

/-- The string `b` with its one leading `/` removed if it has one. -/
def trimLeadingSlash (b : String) : String :=
  if StartsWithSlash b then dropFirst b else b

/-- The request-URI form in the words of the specification: the URL's path,
followed by `?` and the query when there is one. -/
def specRequestURIForm (u : URL) : String :=
  u.Path ++ (if u.RawQuery = "" then "" else "?" ++ u.RawQuery)

/-- The proxy of the examples: `From` is `http://public.example/base`, `To` is
`http://upstream.example`. -/
def exampleProxy : Proxy :=
  { From := { Scheme := "http", Host := "public.example", Path := "/base" },
    To := { Scheme := "http", Host := "upstream.example" } }

/-- The request of the end-to-end example: `/foo?q=bar`, sent to the proxy. -/
def exampleRequest : Request :=
  { URL := { Path := "/foo", RawQuery := "q=bar" }, Host := "proxy.local",
    RequestURI := "/foo?q=bar" }

/-- A buffered upstream response of the examples: a redirect whose `Location`
does not parse, with a body. -/
def exampleBadRedirect : ResponseRecorder :=
  { Code := 302, HeaderMap := [("Location", ["::not a valid url::"])],
    Body := "upstream body" }

/-! ## Strings and the path join -/

theorem hasPrefix_slash_iff (b : String) :
    stringsHasPrefix b "/" = true ↔ StartsWithSlash b := by
  rcases b with ⟨l⟩
  cases l with
  | nil => simp [stringsHasPrefix, StartsWithSlash]
  | cons c cs => simp [stringsHasPrefix, StartsWithSlash, String.length]

theorem hasSuffix_slash_iff (a : String) :
    stringsHasSuffix a "/" = true ↔ EndsWithSlash a := by
  rcases a with ⟨l⟩
  rcases List.eq_nil_or_concat l with h | ⟨l0, c, h⟩
  · subst h; simp [stringsHasSuffix, EndsWithSlash]
  · subst h
    simp [stringsHasSuffix, EndsWithSlash, String.length]

theorem length_pos_of_startsWithSlash {b : String} (h : StartsWithSlash b) :
    1 ≤ b.length := by
  rcases b with ⟨l⟩
  cases l with
  | nil => simp [StartsWithSlash] at h
  | cons c cs => simp [String.length]

theorem sliceFrom_one_of_startsWithSlash {b : String} (h : StartsWithSlash b) :
    sliceFrom b 1 = some (dropFirst b) := by
  have h1 := length_pos_of_startsWithSlash h
  simp [sliceFrom, h1, dropFirst]

/-- The three branches of `singleJoiningSlash`, on the words of the
specification. -/
theorem singleJoiningSlash_branches (a b : String) :
    singleJoiningSlash a b =
      if EndsWithSlash a ∧ StartsWithSlash b then some (a ++ dropFirst b)
      else if ¬ EndsWithSlash a ∧ ¬ StartsWithSlash b then some (a ++ "/" ++ b)
      else some (a ++ b) := by
  by_cases ha : EndsWithSlash a <;> by_cases hb : StartsWithSlash b
  · have h1 := (hasSuffix_slash_iff a).2 ha
    have h2 := (hasPrefix_slash_iff b).2 hb
    simp [singleJoiningSlash, h1, h2, ha, hb, sliceFrom_one_of_startsWithSlash hb]
  · have h1 := (hasSuffix_slash_iff a).2 ha
    have h2 : stringsHasPrefix b "/" = false := by
      rw [← Bool.not_eq_true]; exact fun h => hb ((hasPrefix_slash_iff b).1 h)
    simp [singleJoiningSlash, h1, h2, ha, hb]
  · have h1 : stringsHasSuffix a "/" = false := by
      rw [← Bool.not_eq_true]; exact fun h => ha ((hasSuffix_slash_iff a).1 h)
    have h2 := (hasPrefix_slash_iff b).2 hb
    simp [singleJoiningSlash, h1, h2, ha, hb]
  · have h1 : stringsHasSuffix a "/" = false := by
      rw [← Bool.not_eq_true]; exact fun h => ha ((hasSuffix_slash_iff a).1 h)
    have h2 : stringsHasPrefix b "/" = false := by
      rw [← Bool.not_eq_true]; exact fun h => hb ((hasPrefix_slash_iff b).1 h)
    simp [singleJoiningSlash, h1, h2, ha, hb]

theorem trimTrailingSlash_append {a : String} (h : EndsWithSlash a) :
    trimTrailingSlash a ++ "/" = a := by
  apply String.ext
  simp only [trimTrailingSlash, h, if_true, String.data_append]
  exact List.dropLast_append_getLast? '/' h

theorem slash_append_dropFirst {b : String} (h : StartsWithSlash b) :
    "/" ++ dropFirst b = b := by
  apply String.ext
  simp only [dropFirst, String.data_append]
  exact List.cons_head?_tail h

theorem endsWithSlash_append_slash (x : String) : EndsWithSlash (x ++ "/") := by
  simp [EndsWithSlash, String.data_append]

theorem startsWithSlash_slash_append (y : String) : StartsWithSlash ("/" ++ y) := by
  simp [StartsWithSlash, String.data_append]

theorem string_append_assoc (a b c : String) : a ++ b ++ c = a ++ (b ++ c) := by
  apply String.ext
  simp [String.data_append]

/-- The join as one formula: one `/` between the trimmed segments. -/
theorem singleJoiningSlash_trim (a b : String) :
    singleJoiningSlash a b = some (trimTrailingSlash a ++ "/" ++ trimLeadingSlash b) := by
  rw [singleJoiningSlash_branches]
  by_cases ha : EndsWithSlash a <;> by_cases hb : StartsWithSlash b
  · simp only [ha, hb, and_self, if_true, trimLeadingSlash]
    rw [trimTrailingSlash_append ha]
  · simp only [ha, hb, and_false, if_false, not_true_eq_false, false_and, trimLeadingSlash]
    rw [trimTrailingSlash_append ha]
  · have : trimTrailingSlash a = a := by simp [trimTrailingSlash, ha]
    simp only [ha, hb, false_and, if_false, not_true_eq_false, and_false, trimLeadingSlash,
      if_true, this]
    rw [string_append_assoc, slash_append_dropFirst hb]
  · have : trimTrailingSlash a = a := by simp [trimTrailingSlash, ha]
    simp [ha, hb, trimLeadingSlash, this]

/-- C4: for all strings `a` and `b`, `singleJoiningSlash a b` returns (the slice
`b[1:]` is in range): `a` followed by `b` without its first character when `a`
ends with `/` and `b` starts with `/`; `a ++ "/" ++ b` when `a` does not end
with `/` and `b` does not start with `/`; and `a ++ b` in every other case.
The slice `b[1:]` is taken only when `b` has at least one character. -/
theorem singleJoiningSlash_cases (a b : String) :
    (EndsWithSlash a ∧ StartsWithSlash b →
        singleJoiningSlash a b = some (a ++ dropFirst b)) ∧
    (¬ EndsWithSlash a ∧ ¬ StartsWithSlash b →
        singleJoiningSlash a b = some (a ++ "/" ++ b)) ∧
    (¬ (EndsWithSlash a ∧ StartsWithSlash b) ∧ ¬ (¬ EndsWithSlash a ∧ ¬ StartsWithSlash b) →
        singleJoiningSlash a b = some (a ++ b)) ∧
    (singleJoiningSlash a b).isSome = true ∧
    ((stringsHasSuffix a "/" && stringsHasPrefix b "/") = true →
        1 ≤ b.length ∧ sliceFrom b 1 ≠ none) := by
  refine ⟨?_, ?_, ?_, ?_, ?_⟩
  · intro h
    rw [singleJoiningSlash_branches, if_pos h]
  · intro h
    have h0 : ¬ (EndsWithSlash a ∧ StartsWithSlash b) := fun h1 => h.1 h1.1
    rw [singleJoiningSlash_branches, if_neg h0, if_pos h]
  · intro h
    rw [singleJoiningSlash_branches, if_neg h.1, if_neg h.2]
  · rw [singleJoiningSlash_trim]; rfl
  · intro h
    rw [Bool.and_eq_true] at h
    have hb := (hasPrefix_slash_iff b).1 h.2
    refine ⟨length_pos_of_startsWithSlash hb, ?_⟩
    rw [sliceFrom_one_of_startsWithSlash hb]
    exact Option.some_ne_none _

/-- Witness for C4 on the four joins of `/a` and `b`, and on empty strings. -/
theorem singleJoiningSlash_cases_witness :
    singleJoiningSlash "/a/" "/b" = some "/a/b" ∧
    singleJoiningSlash "/a" "b" = some "/a/b" ∧
    singleJoiningSlash "/a/" "b" = some "/a/b" ∧
    singleJoiningSlash "/a" "/b" = some "/a/b" ∧
    singleJoiningSlash "" "/b" = some "/b" ∧
    singleJoiningSlash "/a/" "" = some "/a/" ∧
    (1 ≤ "/b".length ∧ sliceFrom "/b" 1 ≠ none) :=
  ⟨(singleJoiningSlash_cases "/a/" "/b").1 (by decide),
   (singleJoiningSlash_cases "/a" "b").2.1 (by decide),
   (singleJoiningSlash_cases "/a/" "b").2.2.1 (by decide),
   (singleJoiningSlash_cases "/a" "/b").2.2.1 (by decide),
   (singleJoiningSlash_cases "" "/b").2.2.1 (by decide),
   (singleJoiningSlash_cases "/a/" "").2.2.1 (by decide),
   (singleJoiningSlash_cases "/a/" "/b").2.2.2.2 (by decide)⟩

/-- C5: exactly one `/` separates the two segments: the join of `a` and `b` is
`a0 ++ "/" ++ b0`, where `a0` is `a` without its one trailing `/` (if any) and
`b0` is `b` without its one leading `/` (if any).  Hence, for `x` not ending in
`/` and `y` not starting with `/`, the joins of `(x, y)`, `(x/, y)`, `(x, /y)`
and `(x/, /y)` are all `x ++ "/" ++ y`. -/
theorem singleJoiningSlash_one_slash (a b : String) :
    singleJoiningSlash a b = some (trimTrailingSlash a ++ "/" ++ trimLeadingSlash b) ∧
    (¬ EndsWithSlash a → ¬ StartsWithSlash b →
      singleJoiningSlash a b = some (a ++ "/" ++ b) ∧
      singleJoiningSlash (a ++ "/") b = some (a ++ "/" ++ b) ∧
      singleJoiningSlash a ("/" ++ b) = some (a ++ "/" ++ b) ∧
      singleJoiningSlash (a ++ "/") ("/" ++ b) = some (a ++ "/" ++ b)) := by
  refine ⟨singleJoiningSlash_trim a b, ?_⟩
  intro ha hb
  have ta : trimTrailingSlash a = a := by simp [trimTrailingSlash, ha]
  have tb : trimLeadingSlash b = b := by simp [trimLeadingSlash, hb]
  have ta' : trimTrailingSlash (a ++ "/") = a := by
    apply String.ext
    simp [trimTrailingSlash, endsWithSlash_append_slash, String.data_append]
  have tb' : trimLeadingSlash ("/" ++ b) = b := by
    apply String.ext
    simp [trimLeadingSlash, startsWithSlash_slash_append, dropFirst, String.data_append]
  refine ⟨?_, ?_, ?_, ?_⟩
  · rw [singleJoiningSlash_trim, ta, tb]
  · rw [singleJoiningSlash_trim, ta', tb]
  · rw [singleJoiningSlash_trim, ta, tb']
  · rw [singleJoiningSlash_trim, ta', tb']

/-- Witness for C5 at `x = "/a"`, `y = "b"`. -/
theorem singleJoiningSlash_one_slash_witness :
    singleJoiningSlash "/a" "b" = some "/a/b" ∧
    singleJoiningSlash "/a/" "b" = some "/a/b" ∧
    singleJoiningSlash "/a" "/b" = some "/a/b" ∧
    singleJoiningSlash "/a/" "/b" = some "/a/b" :=
  (singleJoiningSlash_one_slash "/a" "b").2 (by decide) (by decide)

/-! ## Header maps -/

theorem values_assign_same (h : Header) (k : String) (vv : List String) :
    (h.assign k vv).values k = vv := by
  induction h with
  | nil => simp [Header.assign, Header.values]
  | cons e rest ih =>
    obtain ⟨k', vv'⟩ := e
    by_cases hk : k' = k
    · simp [Header.assign, Header.values, hk]
    · simp [Header.assign, Header.values, hk, ih]

theorem values_assign_other (h : Header) {k k' : String} (vv : List String) (hne : k' ≠ k) :
    (h.assign k vv).values k' = h.values k' := by
  induction h with
  | nil => simp [Header.assign, Header.values, Ne.symm hne]
  | cons e rest ih =>
    obtain ⟨k0, vv0⟩ := e
    by_cases hk : k0 = k
    · subst hk
      simp [Header.assign, Header.values, Ne.symm hne]
    · by_cases hk' : k0 = k'
      · subst hk'
        simp [Header.assign, Header.values, hk]
      · simp [Header.assign, Header.values, hk, hk', ih]

theorem keys_assign (h : Header) (k : String) (vv : List String) (k' : String) :
    k' ∈ (h.assign k vv).keys ↔ k' = k ∨ k' ∈ h.keys := by
  induction h with
  | nil => simp [Header.assign, Header.keys]
  | cons e rest ih =>
    obtain ⟨k0, vv0⟩ := e
    by_cases hk : k0 = k
    · subst hk
      simp [Header.assign, Header.keys]
    · have ih' : k' ∈ List.map Prod.fst (Header.assign rest k vv) ↔
          k' = k ∨ k' ∈ List.map Prod.fst rest := ih
      simp only [Header.assign, hk, if_false, Header.keys, List.map_cons, List.mem_cons, ih']
      tauto

theorem values_of_not_mem_keys (h : Header) (k : String) (hk : k ∉ h.keys) :
    h.values k = [] := by
  induction h with
  | nil => rfl
  | cons e rest ih =>
    obtain ⟨k0, vv0⟩ := e
    simp only [Header.keys, List.map_cons, List.mem_cons, not_or] at hk
    have h0 : ¬ k0 = k := fun h => hk.1 h.symm
    simp only [Header.values, h0, if_false]
    exact ih hk.2

theorem values_add_loop (key : String) (vv : List String) (d : Header) (k : String) :
    (vv.foldl (fun d v => d.Add key v) d).values k =
      if k = CanonicalMIMEHeaderKey key then d.values k ++ vv else d.values k := by
  induction vv generalizing d with
  | nil => simp
  | cons v rest ih =>
    rw [List.foldl_cons, ih]
    by_cases hk : k = CanonicalMIMEHeaderKey key
    · subst hk
      simp [Header.Add, values_assign_same]
    · simp [hk, Header.Add, values_assign_other _ _ hk]

theorem values_copy_loop (src : Header) (hnodup : src.keys.Nodup)
    (hcanon : ∀ k ∈ src.keys, CanonicalMIMEHeaderKey k = k) (dst : Header) (k : String) :
    (src.foldl (fun d kvv => kvv.2.foldl (fun d v => d.Add kvv.1 v) d) dst).values k =
      dst.values k ++ src.values k := by
  induction src generalizing dst with
  | nil => simp [Header.values]
  | cons e rest ih =>
    obtain ⟨k0, vv0⟩ := e
    simp only [Header.keys, List.map_cons, List.nodup_cons] at hnodup
    have hc0 : CanonicalMIMEHeaderKey k0 = k0 := hcanon k0 (by simp [Header.keys])
    have hrest : ∀ k ∈ Header.keys rest, CanonicalMIMEHeaderKey k = k := by
      intro k hk
      exact hcanon k (by simp only [Header.keys, List.map_cons, List.mem_cons]; exact Or.inr hk)
    rw [List.foldl_cons, ih hnodup.2 hrest, values_add_loop, hc0]
    by_cases hk : k = k0
    · subst hk
      simp [Header.values, values_of_not_mem_keys rest k hnodup.1]
    · have hk' : ¬ k0 = k := fun h => hk h.symm
      simp [Header.values, hk, hk']

/-- C10: for a source map whose keys are in canonical form, after
`copyHeader dst src` the value list of every key `k` of the destination is its
previous list followed by the source's values for `k`, in the source's order;
a key absent from the source keeps its previous values, and the source is
unchanged. -/
theorem copyHeader_appends (dst src : Header) (hnodup : src.keys.Nodup)
    (hcanon : ∀ k ∈ src.keys, CanonicalMIMEHeaderKey k = k) :
    (∀ k, (copyHeader dst src).1.values k = dst.values k ++ src.values k) ∧
    (∀ k, k ∉ src.keys → (copyHeader dst src).1.values k = dst.values k) ∧
    (copyHeader dst src).2 = src := by
  refine ⟨fun k => values_copy_loop src hnodup hcanon dst k, ?_, rfl⟩
  intro k hk
  have h := values_copy_loop src hnodup hcanon dst k
  rw [values_of_not_mem_keys src k hk, List.append_nil] at h
  exact h

/-- Witness for C10: a source with two `Set-Cookie` values, copied into a
destination that already holds one. -/
theorem copyHeader_appends_witness :
    (∀ k, (copyHeader [("Set-Cookie", ["z=0"]), ("Date", ["today"])]
        [("Set-Cookie", ["a=1", "b=2"]), ("Location", ["/x"])]).1.values k =
      Header.values [("Set-Cookie", ["z=0"]), ("Date", ["today"])] k ++
        Header.values [("Set-Cookie", ["a=1", "b=2"]), ("Location", ["/x"])] k) ∧
    (copyHeader [("Set-Cookie", ["z=0"]), ("Date", ["today"])]
        [("Set-Cookie", ["a=1", "b=2"]), ("Location", ["/x"])]).1.values "Set-Cookie" =
      ["z=0", "a=1", "b=2"] ∧
    (copyHeader [] [("Set-Cookie", ["a=1", "b=2"])]).1 = [("Set-Cookie", ["a=1", "b=2"])] :=
  ⟨(copyHeader_appends [("Set-Cookie", ["z=0"]), ("Date", ["today"])]
      [("Set-Cookie", ["a=1", "b=2"]), ("Location", ["/x"])] (by decide) (by decide)).1,
   by decide, by decide⟩

/-! ## Redirect rewriting -/

theorem canonical_Location : CanonicalMIMEHeaderKey "Location" = "Location" := by
  decide

theorem requestURI_host (net : NetURL) (u : URL) (host : String) :
    URL.RequestURI net { u with Host := host } = u.RequestURI net := rfl

/-- C9: when the `Location` value (the empty string when the header is
missing) parses as a URL that is not absolute, `rewriteRedirect` returns no
error and the header map is exactly as it was. -/
theorem rewriteRedirect_relative (net : NetURL) (p : Proxy) (h : Header) (u : URL)
    (hparse : net.Parse (h.Get "Location") = .ok u) (hrel : u.IsAbs = false) :
    p.rewriteRedirect net h = (none, h) := by
  simp [Proxy.rewriteRedirect, hparse, hrel]

/-- Witness for C9: a relative `Location`, and a header map without
`Location`. -/
theorem rewriteRedirect_relative_witness :
    exampleProxy.rewriteRedirect exampleNet [("Location", ["/already/relative"])] =
      (none, [("Location", ["/already/relative"])]) ∧
    exampleProxy.rewriteRedirect exampleNet [("Content-Type", ["text/html"])] =
      (none, [("Content-Type", ["text/html"])]) :=
  ⟨rewriteRedirect_relative exampleNet exampleProxy [("Location", ["/already/relative"])]
      { Path := "/already/relative" } rfl (by decide),
   rewriteRedirect_relative exampleNet exampleProxy [("Content-Type", ["text/html"])]
      {} rfl (by decide)⟩

/-- C8, as the code has it: when the `Location` value parses as an absolute URL
`u`, `rewriteRedirect` returns no error and leaves `Location` with exactly one
value, `u.RequestURI()`, whatever the host of `To`; every other key keeps its
values.  Without an opaque part that value is `u`'s escaped path, or `/` when
it is empty, followed by `?` and the raw query when the query is non-empty or
forced; with an opaque part, the opaque part stands in place of the path (and
the scheme and `:` in front of it when it starts with `//`).  It is `u`'s path
followed by `?` and the query when there is one, provided `u` has no opaque
part, a non-empty path that is its own escaped form, and no forced query. -/
theorem rewriteRedirect_absolute (net : NetURL) (p : Proxy) (h : Header) (u : URL)
    (hparse : net.Parse (h.Get "Location") = .ok u) (habs : u.IsAbs = true) :
    ∃ h', p.rewriteRedirect net h = (none, h') ∧
      h'.values "Location" = [u.RequestURI net] ∧
      (∀ k, k ≠ "Location" → h'.values k = h.values k ∧ (k ∈ h'.keys ↔ k ∈ h.keys)) ∧
      (∀ host, URL.RequestURI net { u with Host := host } = u.RequestURI net) ∧
      (u.Opaque = "" →
        u.RequestURI net =
          (if u.EscapedPath net = "" then "/" else u.EscapedPath net) ++
            (if u.ForceQuery = true ∨ u.RawQuery ≠ "" then "?" ++ u.RawQuery else "")) ∧
      (u.Opaque ≠ "" →
        u.RequestURI net =
          (if stringsHasPrefix u.Opaque "//" = true then u.Scheme ++ ":" ++ u.Opaque
            else u.Opaque) ++
            (if u.ForceQuery = true ∨ u.RawQuery ≠ "" then "?" ++ u.RawQuery else "")) ∧
      (u.Opaque = "" → u.EscapedPath net = u.Path → u.Path ≠ "" → u.ForceQuery = false →
        u.RequestURI net = specRequestURIForm u) := by
  refine ⟨h.Set "Location" (u.RequestURI net), ?_, ?_, ?_, ?_, ?_, ?_, ?_⟩
  · simp [Proxy.rewriteRedirect, hparse, habs, requestURI_host]
  · simp [Header.Set, canonical_Location, values_assign_same]
  · intro k hk
    refine ⟨?_, ?_⟩
    · simp only [Header.Set, canonical_Location]
      exact values_assign_other h _ hk
    · simp only [Header.Set, canonical_Location, keys_assign]
      exact ⟨fun hh => hh.resolve_left hk, Or.inr⟩
  · intro host; rfl
  · intro ho
    by_cases hq : u.ForceQuery = true ∨ u.RawQuery ≠ ""
    · rcases hq with hq | hq
      · simp [URL.RequestURI, ho, hq, string_append_assoc]
      · simp [URL.RequestURI, ho, hq, string_append_assoc]
    · have h1 : u.ForceQuery = false := by
        cases hf : u.ForceQuery
        · rfl
        · exact absurd (Or.inl hf) hq
      have h2 : u.RawQuery = "" := by
        by_contra hne
        exact hq (Or.inr hne)
      simp [URL.RequestURI, ho, h1, h2, String.append_empty]
  · intro ho
    by_cases hq : u.ForceQuery = true ∨ u.RawQuery ≠ ""
    · rcases hq with hq | hq
      · simp [URL.RequestURI, ho, hq, string_append_assoc]
      · simp [URL.RequestURI, ho, hq, string_append_assoc]
    · have h1 : u.ForceQuery = false := by
        cases hf : u.ForceQuery
        · rfl
        · exact absurd (Or.inl hf) hq
      have h2 : u.RawQuery = "" := by
        by_contra hne
        exact hq (Or.inr hne)
      simp [URL.RequestURI, ho, h1, h2, String.append_empty]
  · intro ho he hp hf
    by_cases hq : u.RawQuery = ""
    · simp [URL.RequestURI, specRequestURIForm, ho, he, hp, hf, hq, String.append_empty]
    · simp [URL.RequestURI, specRequestURIForm, ho, he, hp, hf, hq, string_append_assoc]

/-- Witness for C8: `http://upstream.example/p?x=1` becomes `/p?x=1`. -/
theorem rewriteRedirect_absolute_witness :
    ∃ h', exampleProxy.rewriteRedirect exampleNet
        [("Location", ["http://upstream.example/p?x=1"]), ("Date", ["today"])] = (none, h') ∧
      h'.values "Location" = ["/p?x=1"] ∧ h'.values "Date" = ["today"] :=
  let ⟨h', h1, h2, h3, _, _, _, _⟩ := rewriteRedirect_absolute exampleNet exampleProxy
    [("Location", ["http://upstream.example/p?x=1"]), ("Date", ["today"])]
    { Scheme := "http", Host := "upstream.example", Path := "/p", RawQuery := "x=1" }
    rfl (by decide)
  ⟨h', h1, h2, (h3 "Date" (by decide)).1⟩

/-- Counterexample to C8 as stated: for `Location: http://upstream.example` (an
absolute URL with an empty path and no query) the header becomes `/`, not the
empty path; for `Location: mailto:user@example.com` (an absolute URL with an
opaque part) it becomes `user@example.com`, which is not the URL's path
either.  So the value is not, for every absolute URL, the path followed by `?`
and the query when there is one. -/
theorem rewriteRedirect_absolute_counterexample :
    exampleProxy.rewriteRedirect exampleNet [("Location", ["http://upstream.example"])] =
      (none, [("Location", ["/"])]) ∧
    URL.IsAbs { Scheme := "http", Host := "upstream.example" } = true ∧
    specRequestURIForm { Scheme := "http", Host := "upstream.example" } = "" ∧
    exampleProxy.rewriteRedirect exampleNet [("Location", ["mailto:user@example.com"])] =
      (none, [("Location", ["user@example.com"])]) ∧
    URL.IsAbs { Scheme := "mailto", Opaque := "user@example.com" } = true ∧
    specRequestURIForm { Scheme := "mailto", Opaque := "user@example.com" } = "" ∧
    ¬ (∀ (net : NetURL) (p : Proxy) (h : Header) (u : URL),
        net.Parse (h.Get "Location") = .ok u → u.IsAbs = true →
        (p.rewriteRedirect net h).2.values "Location" = [specRequestURIForm u]) := by
  refine ⟨by decide, by decide, by decide, by decide, by decide, by decide, ?_⟩
  intro hall
  have h := hall exampleNet exampleProxy [("Location", ["http://upstream.example"])]
    { Scheme := "http", Host := "upstream.example" } rfl (by decide)
  revert h
  decide

/-! ## The director -/

/-- The director never panics; its result in closed form. -/
theorem director_eq (p : Proxy) (req : Request) :
    p.director req = some
      { req with
        URL :=
          { req.URL with
            Scheme := p.From.Scheme
            Host := p.From.Host
            Path := trimTrailingSlash p.From.Path ++ "/" ++ trimLeadingSlash req.URL.Path
            RawQuery :=
              if p.From.RawQuery = "" ∨ req.URL.RawQuery = "" then
                p.From.RawQuery ++ req.URL.RawQuery
              else p.From.RawQuery ++ "&" ++ req.URL.RawQuery }
        Host := p.From.Host } := by
  simp only [Proxy.director, singleJoiningSlash_trim, Option.map_some']
  by_cases h : p.From.RawQuery = "" ∨ req.URL.RawQuery = ""
  · simp only [h, if_true]
  · simp only [h, if_false]

/-- A proxy built by `NewProxy` holds the two parsed URLs. -/
theorem NewProxy_ok (net : NetURL) (fromStr toStr : String) (p : Proxy)
    (h : NewProxy net fromStr toStr = .ok p) :
    net.Parse fromStr = .ok p.From ∧ net.Parse toStr = .ok p.To := by
  unfold NewProxy at h
  cases ht : net.Parse toStr with
  | error e => simp [ht] at h
  | ok toURL =>
    cases hf : net.Parse fromStr with
    | error e => simp [ht, hf] at h
    | ok fromURL =>
      simp only [ht, hf, Except.ok.injEq] at h
      subst h
      exact ⟨rfl, rfl⟩

/-- The host the embedded reverse proxy forwards to, for a proxy built by
`NewProxy`: the host of the parsed `from` address. -/
theorem embeddedServeHTTP_host (net : NetURL) (fromStr toStr : String) (p : Proxy)
    (roundTrip : Request → ResponseRecorder) (r : Request)
    (h : NewProxy net fromStr toStr = .ok p) :
    ∃ out, p.embeddedServeHTTP roundTrip r = some (out, roundTrip out) ∧
      net.Parse fromStr = .ok p.From ∧ out.URL.Host = p.From.Host := by
  simp only [Proxy.embeddedServeHTTP, director_eq, Option.map_some']
  exact ⟨_, rfl, (NewProxy_ok net fromStr toStr p h).1, rfl⟩

/-- C2 on a concrete proxy: with `from = http://public.example/base` and
`to = http://upstream.example`, the request for `/foo?q=bar` leaves the
director with the URL host `public.example`, the host of `From`, and not with
`upstream.example`, the host of `To`. -/
theorem director_host_example :
    NewProxy exampleNet "http://public.example/base" "http://upstream.example" =
      .ok exampleProxy ∧
    exampleProxy.To.Host = "upstream.example" ∧
    (exampleProxy.director exampleRequest).map (fun out => out.URL.Host) =
      some "public.example" ∧
    (exampleProxy.embeddedServeHTTP (fun _ => {}) exampleRequest).map
      (fun served => served.1.URL.Host) = some "public.example" ∧
    (exampleProxy.director exampleRequest).map (fun out => out.URL.Host) ≠
      some exampleProxy.To.Host := by
  refine ⟨rfl, rfl, by decide, by decide, by decide⟩

/-- C7: after the director has run, the request URL's scheme and host are
those of `From`, the request's `Host` is the host of `From`, and the path is
`singleJoiningSlash` of the path of `From` and the request's original path;
the other fields of the request, the query apart, are as they were.  With
`From = http://public.example/base`, a request for `/foo?q=bar` gets the path
`/base/foo`, the query `q=bar` and the `Host` `public.example`. -/
theorem director_rewrites_target (p : Proxy) (req : Request) :
    (∃ out, p.director req = some out ∧
      out.URL.Scheme = p.From.Scheme ∧
      out.URL.Host = p.From.Host ∧
      out.Host = p.From.Host ∧
      singleJoiningSlash p.From.Path req.URL.Path = some out.URL.Path ∧
      out.Method = req.Method ∧ out.Header = req.Header ∧ out.Body = req.Body ∧
      out.RequestURI = req.RequestURI ∧ out.RemoteAddr = req.RemoteAddr ∧
      out.URL.Opaque = req.URL.Opaque ∧ out.URL.User = req.URL.User ∧
      out.URL.RawPath = req.URL.RawPath ∧ out.URL.ForceQuery = req.URL.ForceQuery ∧
      out.URL.Fragment = req.URL.Fragment) ∧
    exampleProxy.director exampleRequest = some
      { URL := { Scheme := "http", Host := "public.example", Path := "/base/foo",
                 RawQuery := "q=bar" },
        Host := "public.example", RequestURI := "/foo?q=bar" } := by
  refine ⟨⟨_, director_eq p req, rfl, rfl, rfl, ?_, rfl, rfl, rfl, rfl, rfl, rfl, rfl, rfl,
    rfl, rfl⟩, by decide⟩
  exact singleJoiningSlash_trim _ _

/-- C6: after the director has run, the request's raw query is `q1 ++ q2` when
the raw query `q1` of `From` or the request's raw query `q2` is empty, and
`q1 ++ "&" ++ q2` when both are non-empty; an empty `q1` leaves the request's
query as it was, and an empty `q2` gives `q1`. -/
theorem director_merges_query (p : Proxy) (req : Request) :
    ∃ out, p.director req = some out ∧
      (p.From.RawQuery = "" ∨ req.URL.RawQuery = "" →
        out.URL.RawQuery = p.From.RawQuery ++ req.URL.RawQuery) ∧
      (p.From.RawQuery ≠ "" → req.URL.RawQuery ≠ "" →
        out.URL.RawQuery = p.From.RawQuery ++ "&" ++ req.URL.RawQuery) ∧
      (p.From.RawQuery = "" → out.URL.RawQuery = req.URL.RawQuery) ∧
      (req.URL.RawQuery = "" → out.URL.RawQuery = p.From.RawQuery) := by
  refine ⟨_, director_eq p req, ?_, ?_, ?_, ?_⟩
  · intro h
    simp only [h, if_true]
  · intro h1 h2
    simp only [h1, h2, or_self, if_false]
  · intro h
    simp only [h, true_or, if_true, String.empty_append]
  · intro h
    simp only [h, or_true, if_true, String.append_empty]

/-- Witness for C6: base `a=1` and request `b=2` give `a=1&b=2`; base `""` and
request `x=1` give `x=1`; base `a=1` and request `""` give `a=1`. -/
theorem director_merges_query_witness :
    (∃ out, Proxy.director { From := { RawQuery := "a=1" }, To := {} }
        { URL := { RawQuery := "b=2" } } = some out ∧ out.URL.RawQuery = "a=1&b=2") ∧
    (∃ out, Proxy.director { From := {}, To := {} }
        { URL := { RawQuery := "x=1" } } = some out ∧ out.URL.RawQuery = "x=1") ∧
    (∃ out, Proxy.director { From := { RawQuery := "a=1" }, To := {} }
        { URL := {} } = some out ∧ out.URL.RawQuery = "a=1") := by
  refine ⟨?_, ?_, ?_⟩
  · obtain ⟨out, h0, _, h2, _, _⟩ := director_merges_query
      { From := { RawQuery := "a=1" }, To := {} } { URL := { RawQuery := "b=2" } }
    exact ⟨out, h0, h2 (by decide) (by decide)⟩
  · obtain ⟨out, h0, _, _, h3, _⟩ := director_merges_query
      { From := {}, To := {} } { URL := { RawQuery := "x=1" } }
    exact ⟨out, h0, h3 rfl⟩
  · obtain ⟨out, h0, _, _, _, h4⟩ := director_merges_query
      { From := { RawQuery := "a=1" }, To := {} } { URL := {} }
    exact ⟨out, h0, h4 rfl⟩

/-! ## `ServeHTTP` -/

/-- The last three statements of `ServeHTTP` on a writer that has sent nothing:
the status and the body written are the buffered ones. -/
theorem write_fresh (h : Header) (code : Int) (body : String) :
    let w := ioCopy (ResponseWriter.WriteHeader { header := h } code) body
    w.wroteHeader = true ∧ w.status = code ∧ w.body = body ∧ w.sentHeader = h := by
  by_cases hb : body = ""
  · simp [ioCopy, ResponseWriter.WriteHeader, hb]
  · simp [ioCopy, ResponseWriter.WriteHeader, ResponseWriter.Write, hb, String.empty_append]

/-- The last three statements of `ServeHTTP` after `http.Error`: the status
stays the one `http.Error` sent, and the buffered body follows the error
text. -/
theorem write_after_error (h0 hrec : Header) (err : String) (code code' : Int)
    (body : String) :
    let w0 := httpError { header := h0 } err code
    let w := ioCopy (ResponseWriter.WriteHeader
      { w0 with header := (copyHeader w0.header hrec).1 } code') body
    w.wroteHeader = true ∧ w.status = code ∧ w.body = err ++ "\n" ++ body := by
  by_cases hb : body = ""
  · simp [ioCopy, httpError, ResponseWriter.WriteHeader, ResponseWriter.Write, hb,
      String.empty_append, String.append_empty]
  · simp [ioCopy, httpError, ResponseWriter.WriteHeader, ResponseWriter.Write, hb,
      String.empty_append]

/-- `ServeHTTP` returns whenever the director does. -/
theorem ServeHTTP_returns (net : NetURL) (p : Proxy) (roundTrip : Request → ResponseRecorder)
    (w : ResponseWriter) (r out : Request) (hd : p.director r = some out) :
    ∃ w', p.ServeHTTP net roundTrip w r = some w' := by
  simp only [Proxy.ServeHTTP, Proxy.embeddedServeHTTP, hd, Option.map_some']
  exact ⟨_, rfl⟩

/-- The failure path of `ServeHTTP`, given the directed request. -/
theorem ServeHTTP_failure_of (net : NetURL) (p : Proxy)
    (roundTrip : Request → ResponseRecorder) (r out : Request) (h0 : Header) (err : String)
    (hd : p.director r = some out)
    (h1 : 300 ≤ (roundTrip out).Code) (h2 : (roundTrip out).Code < 400)
    (hparse : net.Parse ((roundTrip out).HeaderMap.Get "Location") = .error err) :
    ∃ w', p.ServeHTTP net roundTrip { header := h0 } r = some w' ∧
      w'.wroteHeader = true ∧ w'.status = 500 ∧
      w'.body = err ++ "\n" ++ (roundTrip out).Body := by
  have hr : Proxy.rewriteRedirect net p (roundTrip out).HeaderMap =
      (some err, (roundTrip out).HeaderMap) := by
    simp only [Proxy.rewriteRedirect, hparse]
  simp only [Proxy.ServeHTTP, Proxy.embeddedServeHTTP, hd, Option.map_some', h1, h2,
    and_self, if_true, hr]
  exact ⟨_, rfl, write_after_error h0 _ err 500 _ _⟩

/-- The success path of `ServeHTTP`, given the directed request. -/
theorem ServeHTTP_success_of (net : NetURL) (p : Proxy)
    (roundTrip : Request → ResponseRecorder) (r out : Request) (h0 : Header)
    (hd : p.director r = some out)
    (hok : (roundTrip out).Code < 300 ∨ 400 ≤ (roundTrip out).Code ∨
      ∃ u, net.Parse ((roundTrip out).HeaderMap.Get "Location") = .ok u) :
    ∃ w', p.ServeHTTP net roundTrip { header := h0 } r = some w' ∧
      w'.wroteHeader = true ∧ w'.status = (roundTrip out).Code ∧
      w'.body = (roundTrip out).Body := by
  simp only [Proxy.ServeHTTP, Proxy.embeddedServeHTTP, hd, Option.map_some']
  by_cases hc : 300 ≤ (roundTrip out).Code ∧ (roundTrip out).Code < 400
  · rcases hok with h | h | ⟨u, hu⟩
    · omega
    · omega
    · have hr : ∃ h', Proxy.rewriteRedirect net p (roundTrip out).HeaderMap = (none, h') := by
        by_cases habs : u.IsAbs = true
        · simp [Proxy.rewriteRedirect, hu, habs]
        · simp [Proxy.rewriteRedirect, hu, habs]
      obtain ⟨h', hr⟩ := hr
      simp only [hc, and_self, if_true, hr]
      have := write_fresh (copyHeader h0 h').1 (roundTrip out).Code (roundTrip out).Body
      exact ⟨_, rfl, this.1, this.2.1, this.2.2.1⟩
  · simp only [hc, if_false]
    have := write_fresh (copyHeader h0 (roundTrip out).HeaderMap).1 (roundTrip out).Code
      (roundTrip out).Body
    exact ⟨_, rfl, this.1, this.2.1, this.2.2.1⟩

/-- The failure path of `ServeHTTP` in general: the call returns, and when the
buffered status is in [300, 400) and the `Location` value does not parse, the
client gets status 500 and a body made of the error text, a newline and then
the whole buffered body: the method does not return after `http.Error`. -/
theorem ServeHTTP_rewrite_failure (net : NetURL) (p : Proxy)
    (roundTrip : Request → ResponseRecorder) (r : Request) (h0 : Header) :
    ∃ out w', p.director r = some out ∧
      p.ServeHTTP net roundTrip { header := h0 } r = some w' ∧
      (∀ err, 300 ≤ (roundTrip out).Code → (roundTrip out).Code < 400 →
        net.Parse ((roundTrip out).HeaderMap.Get "Location") = .error err →
        w'.wroteHeader = true ∧ w'.status = 500 ∧
        w'.body = err ++ "\n" ++ (roundTrip out).Body) := by
  obtain ⟨out, hd⟩ : ∃ out, p.director r = some out := ⟨_, director_eq p r⟩
  obtain ⟨w', hw⟩ := ServeHTTP_returns net p roundTrip { header := h0 } r out hd
  refine ⟨out, w', hd, hw, ?_⟩
  intro err h1 h2 hparse
  obtain ⟨w2, hw2, h⟩ := ServeHTTP_failure_of net p roundTrip r out h0 err hd h1 h2 hparse
  rw [hw] at hw2
  cases hw2
  exact h

/-- C3: `ServeHTTP` returns, and when redirect rewriting does not fail (the
buffered status is outside [300, 400), or the `Location` value parses), it
sends the client the buffered status code and writes exactly the buffered
body. -/
theorem ServeHTTP_passes_through (net : NetURL) (p : Proxy)
    (roundTrip : Request → ResponseRecorder) (r : Request) (h0 : Header) :
    ∃ out w', p.director r = some out ∧
      p.ServeHTTP net roundTrip { header := h0 } r = some w' ∧
      (((roundTrip out).Code < 300 ∨ 400 ≤ (roundTrip out).Code ∨
          ∃ u, net.Parse ((roundTrip out).HeaderMap.Get "Location") = .ok u) →
        w'.wroteHeader = true ∧ w'.status = (roundTrip out).Code ∧
        w'.body = (roundTrip out).Body) := by
  obtain ⟨out, hd⟩ : ∃ out, p.director r = some out := ⟨_, director_eq p r⟩
  obtain ⟨w', hw⟩ := ServeHTTP_returns net p roundTrip { header := h0 } r out hd
  refine ⟨out, w', hd, hw, ?_⟩
  intro hok
  obtain ⟨w2, hw2, h⟩ := ServeHTTP_success_of net p roundTrip r out h0 hd hok
  rw [hw] at hw2
  cases hw2
  exact h

/-- Witness for C3: a 200 response, and a 302 response whose `Location`
parses, reach the client with their status and body. -/
theorem ServeHTTP_passes_through_witness :
    (∃ w', exampleProxy.ServeHTTP exampleNet
        (fun _ => { Code := 200, HeaderMap := [("Content-Type", ["text/html"])],
                    Body := "hello" }) {} exampleRequest = some w' ∧
      w'.status = 200 ∧ w'.body = "hello") ∧
    (∃ w', exampleProxy.ServeHTTP exampleNet
        (fun _ => { Code := 302, HeaderMap := [("Location", ["http://upstream.example/p?x=1"])],
                    Body := "moved" }) {} exampleRequest = some w' ∧
      w'.status = 302 ∧ w'.body = "moved") := by
  refine ⟨?_, ?_⟩
  · obtain ⟨_, w', _, hw, h⟩ := ServeHTTP_passes_through exampleNet exampleProxy
      (fun _ => { Code := 200, HeaderMap := [("Content-Type", ["text/html"])],
                  Body := "hello" }) exampleRequest []
    exact ⟨w', hw, (h (Or.inl (by decide))).2⟩
  · obtain ⟨_, w', _, hw, h⟩ := ServeHTTP_passes_through exampleNet exampleProxy
      (fun _ => { Code := 302, HeaderMap := [("Location", ["http://upstream.example/p?x=1"])],
                  Body := "moved" }) exampleRequest []
    exact ⟨w', hw, (h (Or.inr (Or.inr ⟨_, rfl⟩))).2⟩

/-- C1 on a concrete response: for the buffered response `302` with
`Location: ::not a valid url::` and the body `upstream body`, the client gets
status 500, and its body is the error text and a newline followed by the whole
buffered body; the buffered headers are copied into the header map as well,
after the status line has gone out. -/
theorem ServeHTTP_failure_example :
    exampleProxy.ServeHTTP exampleNet (fun _ => exampleBadRedirect) {} exampleRequest =
      some
        { header := [("Content-Type", ["text/plain; charset=utf-8"]),
                     ("X-Content-Type-Options", ["nosniff"]),
                     ("Location", ["::not a valid url::"])],
          wroteHeader := true,
          status := 500,
          sentHeader := [("Content-Type", ["text/plain; charset=utf-8"]),
                         ("X-Content-Type-Options", ["nosniff"])],
          body := "parse \"::not a valid url::\": missing protocol scheme\nupstream body" } ∧
    exampleNet.Parse (exampleBadRedirect.HeaderMap.Get "Location") =
      .error "parse \"::not a valid url::\": missing protocol scheme" := by
  refine ⟨by decide, rfl⟩

end GoProxy
